import Mathlib

/-
  Verification of the persistent-timer subsystem of the Ambient Study
  Companion backend (src/app.py, lines 759 - 907).

  Shallow embedding notes.
  * Timestamps are modelled as integers counting milliseconds; the Python
    code stores ISO strings and parses them with datetime.fromisoformat.
    A stored timestamp column is therefore one of three things: SQL NULL or
    the empty string (both falsy in Python), a parseable timestamp, or a
    malformed string on which fromisoformat raises.  The inductive type TS
    captures exactly these three cases.
  * The accumulated_ms column is read through the Python idiom
    int(row["accumulated_ms"] or 0), embedded as intOrZero over Option Int.
  * The request payload field duration_ms is modelled as
    Option (Option Int): the outer layer is presence in the JSON body, the
    inner layer is whether the Python call int(value) succeeds, and on what
    integer value.
  * Each HTTP handler is split into a pure row-level transition
    (pauseRow, resumeRow, stopRow, createTimerRow) and a store-level
    operation (pauseOp, ...) duplicating the fetch / not-found / UPDATE
    logic.  The store is a function from ids to optional rows; an UPDATE or
    INSERT is a pointwise overwrite at one id.
-/

namespace AmbientStudy

/-- Stored state of a timestamp column as the Python code observes it:
SQL NULL or the empty string (falsy), a parseable ISO timestamp carrying a
millisecond instant, or a malformed non-empty string on which
datetime.fromisoformat raises. -/
inductive TS where
  | null : TS
  | valid : Int → TS
  | malformed : TS
  deriving DecidableEq, Repr

/-- A row of the timers table (src/app.py schema: kind, label, duration_ms,
status, started_at, paused_at, accumulated_ms, created_at, updated_at). -/
structure TimerRow where
  kind : String
  label : String
  duration_ms : Option Int
  status : String
  started_at : TS
  paused_at : TS
  accumulated_ms : Option Int
  created_at : Int
  updated_at : Int
  deriving DecidableEq, Repr

/-- Embedding of the Python idiom int(x or 0) applied to a nullable
integer column. -/
def intOrZero : Option Int → Int
  | some n => n
  | none => 0

/-- Embedding of _timer_live_fields (src/app.py lines 763 - 785), given the
current wall clock now.  Returns (live_elapsed_ms, live_remaining_ms);
the second component is none exactly when the Python value is null. -/
def timerLiveFields (row : TimerRow) (now : Int) : Int × Option Int :=
  let accumulated := intOrZero row.accumulated_ms
  let live_elapsed :=
    if row.status = "running" then
      match row.started_at with
      | TS.valid s => accumulated + max 0 (now - s)
      | _ => accumulated
    else accumulated
  let live_remaining : Option Int :=
    match row.duration_ms with
    | some d => some (max 0 (d - live_elapsed))
    | none => none
  (live_elapsed, live_remaining)

/-- Errors the timer handlers report to the HTTP client: Not found (404),
a wrong-state rejection (400), or an invalid duration_ms at creation
(400). -/
inductive TimerError where
  | notFound : TimerError
  | invalidState : TimerError
  | invalidArgument : TimerError
  deriving DecidableEq, Repr

/-- JSON body of POST /api/timers.  For duration_ms the outer Option is
presence of the key in the body; the inner Option is the outcome of the
Python call int(value): some n when it parses to the integer n, none when
it raises. -/
structure TimerPayload where
  kind : Option String
  label : Option String
  duration_ms : Option (Option Int)
  deriving Repr

/-- Embedding of the Python str.strip method: drop whitespace from both
ends of the string. -/
def pyStrip (s : String) : String :=
  String.mk (((s.data.dropWhile Char.isWhitespace).reverse.dropWhile
    Char.isWhitespace).reverse)

/-- Embedding of (payload.get("kind") or "pomodoro").strip() followed by
the membership normalization of src/app.py lines 790, 799 - 800. -/
def normalizeKind (k : Option String) : String :=
  let k0 := match k with
    | none => "pomodoro"
    | some s => if s = "" then "pomodoro" else s
  let k1 := pyStrip k0
  if k1 = "pomodoro" ∨ k1 = "stopwatch" ∨ k1 = "custom" then k1 else "custom"

/-- Embedding of (payload.get("label") or "").strip() (src/app.py
line 791). -/
def normalizeLabel (l : Option String) : String :=
  pyStrip (match l with
    | none => ""
    | some s => s)

/-- The record create_timer inserts at src/app.py line 804, given the
normalized duration d: running, started now, nothing accumulated. -/
def freshTimerRow (p : TimerPayload) (d : Option Int) (now : Int) : TimerRow :=
  { kind := normalizeKind p.kind, label := normalizeLabel p.label,
    duration_ms := d, status := "running",
    started_at := TS.valid now, paused_at := TS.null,
    accumulated_ms := some 0, created_at := now, updated_at := now }

/-- Embedding of create_timer (src/app.py lines 787 - 816) up to the
inserted row: reject when duration_ms is present but int() raises,
otherwise build the fresh record inserted at line 804. -/
def createTimerRow (p : TimerPayload) (now : Int) : Except TimerError TimerRow :=
  match p.duration_ms with
  | some none => Except.error TimerError.invalidArgument
  | some (some n) => Except.ok (freshTimerRow p (some n) now)
  | none => Except.ok (freshTimerRow p none now)

/-- Embedding of pause_timer (src/app.py lines 840 - 864) on a fetched
row: reject unless the status is running, then bank the clamped elapsed
delta when started_at parses (a null or malformed started_at banks
nothing) and apply the UPDATE of line 856. -/
def pauseRow (row : TimerRow) (now : Int) : Except TimerError TimerRow :=
  if row.status ≠ "running" then Except.error TimerError.invalidState
  else
    let started : Option Int :=
      match row.started_at with
      | TS.valid s => some s
      | _ => none
    let acc0 := intOrZero row.accumulated_ms
    let acc :=
      match started with
      | some s => acc0 + max 0 (now - s)
      | none => acc0
    Except.ok { row with
                  status := "paused",
                  paused_at := TS.valid now,
                  accumulated_ms := some acc,
                  updated_at := now }

/-- Embedding of resume_timer (src/app.py lines 866 - 882) on a fetched
row: reject unless the status is paused, then apply the UPDATE of
line 874 (fresh started_at, accumulated_ms untouched). -/
def resumeRow (row : TimerRow) (now : Int) : Except TimerError TimerRow :=
  if row.status ≠ "paused" then Except.error TimerError.invalidState
  else
    Except.ok { row with
                  status := "running",
                  started_at := TS.valid now,
                  updated_at := now }

/-- The banking step of stop_timer (src/app.py lines 890 - 897): the
clamped delta is added only when the status is running and started_at is
truthy and parseable; otherwise the stored value is carried over. -/
def stopBankedAcc (row : TimerRow) (now : Int) : Int :=
  let acc0 := intOrZero row.accumulated_ms
  if row.status = "running" then
    match row.started_at with
    | TS.valid s => acc0 + max 0 (now - s)
    | _ => acc0
  else acc0

/-- The status resolution of src/app.py line 898 given the post-banking
accumulated value acc. -/
def stopFinalStatus (row : TimerRow) (acc : Int) : String :=
  match row.duration_ms with
  | some d => if acc ≥ d then "completed" else "stopped"
  | none => "stopped"

/-- Embedding of stop_timer (src/app.py lines 884 - 907) on a fetched
row.  The handler has no status precondition: it banks, resolves completed
versus stopped, and applies the UPDATE of line 899. -/
def stopRow (row : TimerRow) (now : Int) : TimerRow :=
  { row with
      status := stopFinalStatus row (stopBankedAcc row now),
      paused_at := TS.valid now,
      accumulated_ms := some (stopBankedAcc row now),
      updated_at := now }

/-- The timers table: a map from row ids to optional rows. -/
def Store : Type := Nat → Option TimerRow

/-- A single-row INSERT or UPDATE at id tid. -/
def Store.set (st : Store) (tid : Nat) (row : TimerRow) : Store :=
  fun i => if i = tid then some row else st i

/-- Store-level create_timer: on a parse failure the handler returns before
any INSERT, so the store is untouched; otherwise the fresh row is inserted
at the fresh id tid. -/
def createOp (st : Store) (tid : Nat) (p : TimerPayload) (now : Int) :
    Except TimerError TimerRow × Store :=
  match createTimerRow p now with
  | Except.error e => (Except.error e, st)
  | Except.ok row => (Except.ok row, Store.set st tid row)

/-- Store-level pause_timer: fetch, 404 when absent, reject or UPDATE. -/
def pauseOp (st : Store) (tid : Nat) (now : Int) :
    Except TimerError TimerRow × Store :=
  match st tid with
  | none => (Except.error TimerError.notFound, st)
  | some row =>
      match pauseRow row now with
      | Except.error e => (Except.error e, st)
      | Except.ok row1 => (Except.ok row1, Store.set st tid row1)

/-- Store-level resume_timer: fetch, 404 when absent, reject or UPDATE. -/
def resumeOp (st : Store) (tid : Nat) (now : Int) :
    Except TimerError TimerRow × Store :=
  match st tid with
  | none => (Except.error TimerError.notFound, st)
  | some row =>
      match resumeRow row now with
      | Except.error e => (Except.error e, st)
      | Except.ok row1 => (Except.ok row1, Store.set st tid row1)

/-- Store-level stop_timer: fetch, 404 when absent, otherwise the UPDATE
always happens (no status precondition in the handler). -/
def stopOp (st : Store) (tid : Nat) (now : Int) :
    Except TimerError TimerRow × Store :=
  match st tid with
  | none => (Except.error TimerError.notFound, st)
  | some row => (Except.ok (stopRow row now), Store.set st tid (stopRow row now))

/-- Read-only projection used by the GET handlers: fetch a row and compute
its live fields, leaving the store as found (SELECT only). -/
def liveFieldsOp (st : Store) (tid : Nat) (now : Int) :
    Option (Int × Option Int) × Store :=
  match st tid with
  | none => (none, st)
  | some row => (some (timerLiveFields row now), st)

/-- Rows reachable through the four mutating operations: created by
create_timer and transformed by any sequence of successful pause, resume
and stop calls. -/
inductive ReachableRow : TimerRow → Prop where
  | create (p : TimerPayload) (now : Int) (row : TimerRow) :
      createTimerRow p now = Except.ok row → ReachableRow row
  | pause (row : TimerRow) (now : Int) (row1 : TimerRow) :
      ReachableRow row → pauseRow row now = Except.ok row1 → ReachableRow row1
  | resume (row : TimerRow) (now : Int) (row1 : TimerRow) :
      ReachableRow row → resumeRow row now = Except.ok row1 → ReachableRow row1
  | stop (row : TimerRow) (now : Int) :
      ReachableRow row → ReachableRow (stopRow row now)

/-- C1: the live-field derivation.  When the status is running and
started_at holds a parseable instant s, live_elapsed_ms is
accumulated_ms + max(0, now - s); in every other case (not running, or
started_at absent or malformed) it is accumulated_ms alone.  When
duration_ms is set the remaining field is max(0, duration_ms - elapsed),
hence never negative; when unset (stopwatch) it is null. -/
theorem live_fields_spec (row : TimerRow) (now : Int) :
    (∀ s, row.status = "running" → row.started_at = TS.valid s →
      (timerLiveFields row now).1 = intOrZero row.accumulated_ms + max 0 (now - s)) ∧
    ((¬ ∃ s, row.status = "running" ∧ row.started_at = TS.valid s) →
      (timerLiveFields row now).1 = intOrZero row.accumulated_ms) ∧
    (∀ d, row.duration_ms = some d →
      (timerLiveFields row now).2 = some (max 0 (d - (timerLiveFields row now).1))) ∧
    (row.duration_ms = none → (timerLiveFields row now).2 = none) ∧
    (∀ r, (timerLiveFields row now).2 = some r → 0 ≤ r) := by
  refine ⟨?_, ?_, ?_, ?_, ?_⟩
  · intro s hrun hst
    simp [timerLiveFields, hrun, hst]
  · intro hno
    by_cases hrun : row.status = "running"
    · cases hst : row.started_at with
      | null => simp [timerLiveFields, hrun, hst]
      | valid s => exact absurd ⟨s, hrun, hst⟩ hno
      | malformed => simp [timerLiveFields, hrun, hst]
    · simp [timerLiveFields, hrun]
  · intro d hd
    simp [timerLiveFields, hd]
  · intro hd
    simp [timerLiveFields, hd]
  · intro r hr
    cases hd : row.duration_ms with
    | none => simp [timerLiveFields, hd] at hr
    | some d =>
        simp [timerLiveFields, hd] at hr
        omega

/-- Concrete running countdown row used to instantiate theorems. -/
def exRunRow : TimerRow :=
  { kind := "pomodoro", label := "focus", duration_ms := some 60000,
    status := "running", started_at := TS.valid 1000, paused_at := TS.null,
    accumulated_ms := some 2500, created_at := 1000, updated_at := 1000 }

/-- Witness for C1: instantiating the live-field specification on a
concrete running countdown row at now = 4000. -/
theorem live_fields_spec_witness :
    (timerLiveFields exRunRow 4000).1 = 2500 + max 0 (4000 - 1000) ∧
    (timerLiveFields exRunRow 4000).2 = some (max 0 (60000 - (timerLiveFields exRunRow 4000).1)) := by
  have h := live_fields_spec exRunRow 4000
  exact ⟨h.1 1000 (by decide) (by decide), h.2.2.1 60000 (by decide)⟩

/-- The empty timers table. -/
def emptyStore : Store := fun _ => none

/-- The concrete record the create handler inserts for a request carrying
kind pomodoro and duration_ms = -5 at now = 100: the negative duration is
stored as-is. -/
def exNegCreatedRow : TimerRow :=
  { kind := "pomodoro", label := "", duration_ms := some (-5),
    status := "running", started_at := TS.valid 100, paused_at := TS.null,
    accumulated_ms := some 0, created_at := 100, updated_at := 100 }

/-- C2 counterexample: the claim says a duration_ms that is present and
parseable but negative (hence not a non-negative integer) is rejected with
InvalidArgument and nothing is inserted.  The handler only checks that
int() succeeds, so a request with duration_ms = -5 is accepted: create
returns the new record and inserts it at the fresh id. -/
theorem create_negative_duration_cex :
    (createOp emptyStore 1 ⟨some "pomodoro", none, some (some (-5))⟩ 100).1 =
      Except.ok exNegCreatedRow ∧
    (createOp emptyStore 1 ⟨some "pomodoro", none, some (some (-5))⟩ 100).2 1 =
      some exNegCreatedRow ∧
    exNegCreatedRow.duration_ms = some (-5) ∧
    exNegCreatedRow.status = "running" :=
  ⟨rfl, rfl, rfl, rfl⟩

/-- C2 (amended): a duration_ms that is present but on which int() raises
is rejected with InvalidArgument and nothing is inserted; when duration_ms
is absent or parses to any integer, negative ones included, create
succeeds, inserts the fresh record, and that record has status running,
started_at = now and accumulated_ms = 0. -/
theorem create_timer_spec (st : Store) (tid : Nat) (p : TimerPayload) (now : Int) :
    (p.duration_ms = some none →
      (createOp st tid p now).1 = Except.error TimerError.invalidArgument ∧
      (createOp st tid p now).2 = st) ∧
    (∀ n, p.duration_ms = some (some n) →
      createOp st tid p now =
        (Except.ok (freshTimerRow p (some n) now),
         Store.set st tid (freshTimerRow p (some n) now))) ∧
    (p.duration_ms = none →
      createOp st tid p now =
        (Except.ok (freshTimerRow p none now),
         Store.set st tid (freshTimerRow p none now))) ∧
    (∀ d, (freshTimerRow p d now).status = "running" ∧
      (freshTimerRow p d now).started_at = TS.valid now ∧
      (freshTimerRow p d now).accumulated_ms = some 0 ∧
      (freshTimerRow p d now).duration_ms = d) := by
  refine ⟨?_, ?_, ?_, ?_⟩
  · intro h
    simp [createOp, createTimerRow, h]
  · intro n h
    simp [createOp, createTimerRow, h]
  · intro h
    simp [createOp, createTimerRow, h]
  · intro d
    exact ⟨rfl, rfl, rfl, rfl⟩

/-- Witness for C2 (amended): create on the empty store with a present,
parseable duration of 1500 at now = 7 inserts the fresh running record,
and a present but unparseable duration is rejected leaving the store
untouched. -/
theorem create_timer_spec_witness :
    (createOp emptyStore 1 ⟨some "pomodoro", some "x", some (some 1500)⟩ 7 =
      (Except.ok (freshTimerRow ⟨some "pomodoro", some "x", some (some 1500)⟩ (some 1500) 7),
       Store.set emptyStore 1
         (freshTimerRow ⟨some "pomodoro", some "x", some (some 1500)⟩ (some 1500) 7))) ∧
    ((createOp emptyStore 1 ⟨none, none, some none⟩ 7).1 =
      Except.error TimerError.invalidArgument ∧
     (createOp emptyStore 1 ⟨none, none, some none⟩ 7).2 = emptyStore) :=
  ⟨(create_timer_spec emptyStore 1 ⟨some "pomodoro", some "x", some (some 1500)⟩ 7).2.1
      1500 rfl,
   (create_timer_spec emptyStore 1 ⟨none, none, some none⟩ 7).1 rfl⟩

/-- Concrete stopped stopwatch row, for the terminal-state theorems. -/
def exStoppedRow : TimerRow :=
  { kind := "custom", label := "", duration_ms := none, status := "stopped",
    started_at := TS.null, paused_at := TS.valid 10,
    accumulated_ms := some 10, created_at := 0, updated_at := 10 }

/-- A one-row table holding exStoppedRow at id 1. -/
def exTermStore : Store := fun i => if i = 1 then some exStoppedRow else none

/-- C3 counterexample: the claim says all three of pause, resume and stop
are rejected on a stopped timer and the record is left unchanged.  The
stop handler has no status precondition: on the stored stopped row it
succeeds and rewrites the record (fresh paused_at and updated_at). -/
theorem terminal_stop_accepted_cex :
    (stopOp exTermStore 1 50).1 = Except.ok (stopRow exStoppedRow 50) ∧
    stopRow exStoppedRow 50 ≠ exStoppedRow ∧
    (stopOp exTermStore 1 50).2 1 = some (stopRow exStoppedRow 50) :=
  ⟨rfl, by decide, rfl⟩

/-- C3 (amended): stopped and completed are terminal for pause and resume,
which are rejected with InvalidState leaving the table unchanged; stop,
however, checks only existence: on a stored timer of any terminal status
it succeeds, returning the rewritten row, and banks no additional time
since the status is not running. -/
theorem terminal_states_spec (st : Store) (tid : Nat) (now : Int) (row : TimerRow) :
    st tid = some row → (row.status = "stopped" ∨ row.status = "completed") →
    ((pauseOp st tid now).1 = Except.error TimerError.invalidState ∧
     (pauseOp st tid now).2 = st) ∧
    ((resumeOp st tid now).1 = Except.error TimerError.invalidState ∧
     (resumeOp st tid now).2 = st) ∧
    ((stopOp st tid now).1 = Except.ok (stopRow row now) ∧
     (stopRow row now).accumulated_ms = some (intOrZero row.accumulated_ms)) := by
  intro hrow hterm
  have hnr : row.status ≠ "running" := by
    rcases hterm with h | h <;> simp [h]
  have hnp : row.status ≠ "paused" := by
    rcases hterm with h | h <;> simp [h]
  refine ⟨⟨?_, ?_⟩, ⟨?_, ?_⟩, ?_, ?_⟩
  · simp [pauseOp, hrow, pauseRow, hnr]
  · simp [pauseOp, hrow, pauseRow, hnr]
  · simp [resumeOp, hrow, resumeRow, hnp]
  · simp [resumeOp, hrow, resumeRow, hnp]
  · simp [stopOp, hrow]
  · simp [stopRow, stopBankedAcc, hnr]

/-- Witness for C3 (amended): on the stored stopped row at id 1, pause and
resume report InvalidState with the table untouched, while stop succeeds
without banking. -/
theorem terminal_states_spec_witness :
    (pauseOp exTermStore 1 50).1 = Except.error TimerError.invalidState ∧
    (pauseOp exTermStore 1 50).2 = exTermStore ∧
    (resumeOp exTermStore 1 50).1 = Except.error TimerError.invalidState ∧
    (resumeOp exTermStore 1 50).2 = exTermStore ∧
    (stopOp exTermStore 1 50).1 = Except.ok (stopRow exStoppedRow 50) ∧
    (stopRow exStoppedRow 50).accumulated_ms = some (intOrZero exStoppedRow.accumulated_ms) := by
  have h := terminal_states_spec exTermStore 1 50 exStoppedRow rfl (Or.inl rfl)
  exact ⟨h.1.1, h.1.2, h.2.1.1, h.2.1.2, h.2.2.1, h.2.2.2⟩

/-- C4: pause on an unknown id is NotFound with the table untouched; pause
on a stored row that is not running is InvalidState with the table
untouched; pause on a stored running row with parseable started_at s banks
max(0, now - s) into accumulated_ms, sets status paused and
paused_at = now, updates updated_at, leaves started_at as-is, and writes
the row back. -/
theorem pause_timer_spec (st : Store) (tid : Nat) (now : Int) :
    (st tid = none → pauseOp st tid now = (Except.error TimerError.notFound, st)) ∧
    (∀ row, st tid = some row →
      (row.status ≠ "running" →
        pauseOp st tid now = (Except.error TimerError.invalidState, st)) ∧
      (∀ s, row.status = "running" → row.started_at = TS.valid s →
        pauseOp st tid now =
          (Except.ok { row with
              status := "paused",
              paused_at := TS.valid now,
              accumulated_ms := some (intOrZero row.accumulated_ms + max 0 (now - s)),
              updated_at := now },
           Store.set st tid { row with
              status := "paused",
              paused_at := TS.valid now,
              accumulated_ms := some (intOrZero row.accumulated_ms + max 0 (now - s)),
              updated_at := now }))) := by
  refine ⟨?_, ?_⟩
  · intro h
    simp [pauseOp, h]
  · intro row hrow
    refine ⟨?_, ?_⟩
    · intro hnr
      simp [pauseOp, hrow, pauseRow, hnr]
    · intro s hrun hst
      simp [pauseOp, hrow, pauseRow, hrun, hst]

/-- A one-row table holding the running countdown exRunRow at id 1. -/
def exRunStore : Store := fun i => if i = 1 then some exRunRow else none

/-- Witness for C4: pausing the stored running countdown at id 1 with
now = 4000 banks 2500 + max(0, 3000) and writes the paused row back, and
pausing the missing id 2 is NotFound. -/
theorem pause_timer_spec_witness :
    pauseOp exRunStore 1 4000 =
      (Except.ok { exRunRow with
          status := "paused",
          paused_at := TS.valid 4000,
          accumulated_ms := some (intOrZero exRunRow.accumulated_ms + max 0 (4000 - 1000)),
          updated_at := 4000 },
       Store.set exRunStore 1 { exRunRow with
          status := "paused",
          paused_at := TS.valid 4000,
          accumulated_ms := some (intOrZero exRunRow.accumulated_ms + max 0 (4000 - 1000)),
          updated_at := 4000 }) ∧
    pauseOp exRunStore 2 4000 = (Except.error TimerError.notFound, exRunStore) :=
  ⟨((pause_timer_spec exRunStore 1 4000).2 exRunRow rfl).2 1000 rfl rfl,
   (pause_timer_spec exRunStore 2 4000).1 rfl⟩

/-- Helper: the status resolved at src/app.py line 898 is completed
precisely when duration_ms is set and already reached by acc. -/
theorem stopFinalStatus_completed_iff (row : TimerRow) (a : Int) :
    stopFinalStatus row a = "completed" ↔
      ∃ d, row.duration_ms = some d ∧ d ≤ a := by
  cases hd : row.duration_ms with
  | none => simp [stopFinalStatus, hd]
  | some d =>
      simp only [stopFinalStatus, hd]
      constructor
      · intro hc
        by_cases hge : a ≥ d
        · exact ⟨d, rfl, hge⟩
        · rw [if_neg hge] at hc
          exact absurd hc (by decide)
      · rintro ⟨d1, hd1, hle⟩
        injection hd1 with h1
        subst h1
        rw [if_pos hle]

/-- Helper: the status resolved at src/app.py line 898 is completed or
stopped, never anything else. -/
theorem stopFinalStatus_cases (row : TimerRow) (a : Int) :
    stopFinalStatus row a = "completed" ∨ stopFinalStatus row a = "stopped" := by
  cases hd : row.duration_ms with
  | none => simp [stopFinalStatus, hd]
  | some d =>
      simp only [stopFinalStatus, hd]
      split <;> simp

/-- C5: stop on an unknown id is NotFound with the table untouched; stop
on any stored row succeeds with the rewritten row, which has
paused_at = now; the banking happens exactly on a running row (with a
parseable started_at it adds max(0, now - s), on a non-running row the
accumulated value is carried over unchanged); the final status is
completed precisely when duration_ms is set and the post-banking
accumulated_ms reaches it, and stopped in every other case. -/
theorem stop_timer_spec (st : Store) (tid : Nat) (now : Int) :
    (st tid = none → stopOp st tid now = (Except.error TimerError.notFound, st)) ∧
    (∀ row, st tid = some row →
      stopOp st tid now =
        (Except.ok (stopRow row now), Store.set st tid (stopRow row now)) ∧
      (stopRow row now).paused_at = TS.valid now ∧
      (∀ s, row.status = "running" → row.started_at = TS.valid s →
        (stopRow row now).accumulated_ms =
          some (intOrZero row.accumulated_ms + max 0 (now - s))) ∧
      (row.status ≠ "running" →
        (stopRow row now).accumulated_ms = some (intOrZero row.accumulated_ms)) ∧
      ((stopRow row now).status = "completed" ↔
        ∃ d, row.duration_ms = some d ∧ d ≤ intOrZero (stopRow row now).accumulated_ms) ∧
      ((stopRow row now).status = "completed" ∨ (stopRow row now).status = "stopped")) := by
  refine ⟨?_, ?_⟩
  · intro h
    simp [stopOp, h]
  · intro row hrow
    refine ⟨?_, ?_, ?_, ?_, ?_, ?_⟩
    · simp [stopOp, hrow]
    · simp [stopRow]
    · intro s hrun hst
      simp [stopRow, stopBankedAcc, hrun, hst]
    · intro hnr
      simp [stopRow, stopBankedAcc, hnr]
    · exact stopFinalStatus_completed_iff row (stopBankedAcc row now)
    · exact stopFinalStatus_cases row (stopBankedAcc row now)

/-- Witness for C5: stopping the stored running countdown at id 1 with
now = 70000 banks 2500 + 69000 = 71500 >= 60000, so the final status is
completed, and stopping the missing id 2 is NotFound. -/
theorem stop_timer_spec_witness :
    stopOp exRunStore 1 70000 =
      (Except.ok (stopRow exRunRow 70000),
       Store.set exRunStore 1 (stopRow exRunRow 70000)) ∧
    (stopRow exRunRow 70000).accumulated_ms =
      some (intOrZero exRunRow.accumulated_ms + max 0 (70000 - 1000)) ∧
    (stopRow exRunRow 70000).status = "completed" ∧
    stopOp exRunStore 2 70000 = (Except.error TimerError.notFound, exRunStore) := by
  have h := (stop_timer_spec exRunStore 1 70000).2 exRunRow rfl
  refine ⟨h.1, h.2.2.1 1000 rfl rfl, ?_, (stop_timer_spec exRunStore 2 70000).1 rfl⟩
  exact h.2.2.2.2.1.mpr ⟨60000, rfl, by decide⟩

/-- C6: on a stored row, pause in any status other than running and resume
in any status other than paused are rejected with InvalidState, and the
table is returned exactly as found (no field of any record changes);
resume on a paused row rewrites it to running with a fresh started_at
and fresh updated_at, leaving accumulated_ms (and every other field)
unchanged. -/
theorem invalid_transition_spec (st : Store) (tid : Nat) (now : Int) (row : TimerRow) :
    st tid = some row →
    (row.status ≠ "running" →
      pauseOp st tid now = (Except.error TimerError.invalidState, st)) ∧
    (row.status ≠ "paused" →
      resumeOp st tid now = (Except.error TimerError.invalidState, st)) ∧
    (row.status = "paused" →
      resumeOp st tid now =
        (Except.ok { row with
            status := "running",
            started_at := TS.valid now,
            updated_at := now },
         Store.set st tid { row with
            status := "running",
            started_at := TS.valid now,
            updated_at := now }) ∧
      ({ row with
          status := "running",
          started_at := TS.valid now,
          updated_at := now } : TimerRow).accumulated_ms = row.accumulated_ms) := by
  intro hrow
  refine ⟨?_, ?_, ?_⟩
  · intro hnr
    simp [pauseOp, hrow, pauseRow, hnr]
  · intro hnp
    simp [resumeOp, hrow, resumeRow, hnp]
  · intro hp
    exact ⟨by simp [resumeOp, hrow, resumeRow, hp], rfl⟩

/-- A one-row table holding a paused countdown at id 1. -/
def exPausedRow : TimerRow :=
  { kind := "pomodoro", label := "", duration_ms := some 60000,
    status := "paused", started_at := TS.valid 1000, paused_at := TS.valid 3000,
    accumulated_ms := some 2000, created_at := 1000, updated_at := 3000 }

/-- The one-row table for exPausedRow. -/
def exPausedStore : Store := fun i => if i = 1 then some exPausedRow else none

/-- Witness for C6: pausing the stored paused row is InvalidState with the
table untouched, and resuming it yields the running rewrite with the same
accumulated_ms. -/
theorem invalid_transition_spec_witness :
    pauseOp exPausedStore 1 5000 = (Except.error TimerError.invalidState, exPausedStore) ∧
    resumeOp exPausedStore 1 5000 =
      (Except.ok { exPausedRow with
          status := "running",
          started_at := TS.valid 5000,
          updated_at := 5000 },
       Store.set exPausedStore 1 { exPausedRow with
          status := "running",
          started_at := TS.valid 5000,
          updated_at := 5000 }) ∧
    ({ exPausedRow with
        status := "running",
        started_at := TS.valid 5000,
        updated_at := 5000 } : TimerRow).accumulated_ms = exPausedRow.accumulated_ms := by
  have h := invalid_transition_spec exPausedStore 1 5000 exPausedRow rfl
  exact ⟨h.1 (by decide), (h.2.2 rfl).1, (h.2.2 rfl).2⟩

/-- Concrete running row whose started_at column holds a malformed
timestamp string. -/
def exMalformedRow : TimerRow :=
  { kind := "custom", label := "", duration_ms := some 5000,
    status := "running", started_at := TS.malformed, paused_at := TS.null,
    accumulated_ms := some 1200, created_at := 0, updated_at := 0 }

/-- C7: a malformed started_at never surfaces an error.  The live-field
derivation falls back to accumulated_ms alone; pause on such a running row
still succeeds, banking nothing; and the stop banking step carries the
accumulated value over unchanged. -/
theorem malformed_started_at_spec (row : TimerRow) (now : Int) :
    row.started_at = TS.malformed →
    (timerLiveFields row now).1 = intOrZero row.accumulated_ms ∧
    (row.status = "running" →
      pauseRow row now = Except.ok { row with
        status := "paused",
        paused_at := TS.valid now,
        accumulated_ms := some (intOrZero row.accumulated_ms),
        updated_at := now }) ∧
    (stopRow row now).accumulated_ms = some (intOrZero row.accumulated_ms) := by
  intro hst
  refine ⟨?_, ?_, ?_⟩
  · by_cases hrun : row.status = "running"
    · simp [timerLiveFields, hrun, hst]
    · simp [timerLiveFields, hrun]
  · intro hrun
    simp [pauseRow, hrun, hst]
  · by_cases hrun : row.status = "running"
    · simp [stopRow, stopBankedAcc, hrun, hst]
    · simp [stopRow, stopBankedAcc, hrun]

/-- Witness for C7: on the stored running row with a malformed started_at
at now = 9000, the live elapsed value is the banked 1200, pause succeeds
banking nothing, and stop carries 1200 over. -/
theorem malformed_started_at_spec_witness :
    (timerLiveFields exMalformedRow 9000).1 = intOrZero exMalformedRow.accumulated_ms ∧
    pauseRow exMalformedRow 9000 = Except.ok { exMalformedRow with
      status := "paused",
      paused_at := TS.valid 9000,
      accumulated_ms := some (intOrZero exMalformedRow.accumulated_ms),
      updated_at := 9000 } ∧
    (stopRow exMalformedRow 9000).accumulated_ms =
      some (intOrZero exMalformedRow.accumulated_ms) := by
  have h := malformed_started_at_spec exMalformedRow 9000 rfl
  exact ⟨h.1, h.2.1 rfl, h.2.2⟩

/-- C8: the transition operations never touch the fields fixed at
creation.  A successful pause changes nothing besides status, paused_at,
accumulated_ms and updated_at; a successful resume changes nothing besides
status, started_at and updated_at; stop changes nothing besides status,
paused_at, accumulated_ms and updated_at.  In particular duration_ms,
kind, label and created_at survive every operation. -/
theorem frame_spec (row : TimerRow) (now : Int) :
    (∀ row1, pauseRow row now = Except.ok row1 →
      row1.duration_ms = row.duration_ms ∧ row1.kind = row.kind ∧
      row1.label = row.label ∧ row1.created_at = row.created_at ∧
      row1.started_at = row.started_at) ∧
    (∀ row1, resumeRow row now = Except.ok row1 →
      row1.duration_ms = row.duration_ms ∧ row1.kind = row.kind ∧
      row1.label = row.label ∧ row1.created_at = row.created_at ∧
      row1.accumulated_ms = row.accumulated_ms ∧ row1.paused_at = row.paused_at) ∧
    ((stopRow row now).duration_ms = row.duration_ms ∧
      (stopRow row now).kind = row.kind ∧ (stopRow row now).label = row.label ∧
      (stopRow row now).created_at = row.created_at ∧
      (stopRow row now).started_at = row.started_at) := by
  refine ⟨?_, ?_, ?_⟩
  · intro row1 h
    unfold pauseRow at h
    split at h
    · exact absurd h (by simp)
    · injection h with h1
      subst h1
      exact ⟨rfl, rfl, rfl, rfl, rfl⟩
  · intro row1 h
    unfold resumeRow at h
    split at h
    · exact absurd h (by simp)
    · injection h with h1
      subst h1
      exact ⟨rfl, rfl, rfl, rfl, rfl, rfl⟩
  · exact ⟨rfl, rfl, rfl, rfl, rfl⟩

/-- Witness for C8: instantiating the frame property on the concrete
running countdown paused at now = 4000. -/
theorem frame_spec_witness :
    ({ exRunRow with
        status := "paused",
        paused_at := TS.valid 4000,
        accumulated_ms := some (intOrZero exRunRow.accumulated_ms + max 0 (4000 - 1000)),
        updated_at := 4000 } : TimerRow).duration_ms = exRunRow.duration_ms ∧
    (stopRow exRunRow 4000).duration_ms = exRunRow.duration_ms := by
  have h := frame_spec exRunRow 4000
  refine ⟨?_, h.2.2.1⟩
  exact (h.1 _ (by simp [pauseRow, exRunRow])).1

/-- C9: the live-field derivation is a pure read.  The read-only
projection returns the table exactly as found, and a second evaluation on
the table it returns, with the same id and the same now, yields the same
live fields. -/
theorem live_fields_pure_spec (st : Store) (tid : Nat) (now : Int) :
    (liveFieldsOp st tid now).2 = st ∧
    (liveFieldsOp ((liveFieldsOp st tid now).2) tid now).1 =
      (liveFieldsOp st tid now).1 := by
  cases h : st tid with
  | none => simp [liveFieldsOp, h]
  | some row => simp [liveFieldsOp, h]

/-- Helper: a record the create handler accepts starts with
accumulated_ms = 0. -/
theorem createTimerRow_ok_acc {p : TimerPayload} {now : Int} {row : TimerRow}
    (h : createTimerRow p now = Except.ok row) : row.accumulated_ms = some 0 := by
  unfold createTimerRow at h
  split at h
  · exact absurd h (by simp)
  · injection h with h1
    subst h1
    rfl
  · injection h with h1
    subst h1
    rfl

/-- Helper: a successful pause writes back some banked value at least the
stored one. -/
theorem pauseRow_ok_acc {row : TimerRow} {now : Int} {row1 : TimerRow}
    (h : pauseRow row now = Except.ok row1) :
    ∃ b : Int, row1.accumulated_ms = some b ∧ intOrZero row.accumulated_ms ≤ b := by
  unfold pauseRow at h
  split at h
  · exact absurd h (by simp)
  · injection h with h1
    subst h1
    cases hs : row.started_at with
    | null =>
        refine ⟨intOrZero row.accumulated_ms, ?_, le_refl _⟩
        simp [hs]
    | valid s =>
        refine ⟨intOrZero row.accumulated_ms + max 0 (now - s), ?_,
          le_add_of_nonneg_right (le_max_left 0 (now - s))⟩
        simp [hs]
    | malformed =>
        refine ⟨intOrZero row.accumulated_ms, ?_, le_refl _⟩
        simp [hs]

/-- Helper: a successful resume carries accumulated_ms over unchanged. -/
theorem resumeRow_ok_acc {row : TimerRow} {now : Int} {row1 : TimerRow}
    (h : resumeRow row now = Except.ok row1) :
    row1.accumulated_ms = row.accumulated_ms := by
  unfold resumeRow at h
  split at h
  · exact absurd h (by simp)
  · injection h with h1
    subst h1
    rfl

/-- Helper: the stop banking step never lowers the accumulated value. -/
theorem stopBankedAcc_ge (row : TimerRow) (now : Int) :
    intOrZero row.accumulated_ms ≤ stopBankedAcc row now := by
  unfold stopBankedAcc
  by_cases hrun : row.status = "running"
  · cases hs : row.started_at with
    | null => simp [hrun, hs]
    | valid s =>
        simp only [hrun, hs, if_true]
        exact le_add_of_nonneg_right (le_max_left 0 (now - s))
    | malformed => simp [hrun, hs]
  · simp [hrun]

/-- C10: on every record reachable through the four operations the
accumulated_ms column holds a non-negative integer, and no operation ever
lowers it: create initializes it to 0, a successful pause adds only the
clamped non-negative delta, resume carries it over unchanged, and the
stop banking step never lowers it. -/
theorem accumulated_invariant_spec :
    (∀ row, ReachableRow row → ∃ a : Int, row.accumulated_ms = some a ∧ 0 ≤ a) ∧
    (∀ p now row, createTimerRow p now = Except.ok row →
      row.accumulated_ms = some 0) ∧
    (∀ row now row1, pauseRow row now = Except.ok row1 →
      intOrZero row.accumulated_ms ≤ intOrZero row1.accumulated_ms) ∧
    (∀ row now row1, resumeRow row now = Except.ok row1 →
      row1.accumulated_ms = row.accumulated_ms) ∧
    (∀ row now, intOrZero row.accumulated_ms ≤
      intOrZero (stopRow row now).accumulated_ms) := by
  refine ⟨?_, ?_, ?_, ?_, ?_⟩
  · intro row hreach
    induction hreach with
    | create p now row h => exact ⟨0, createTimerRow_ok_acc h, le_refl 0⟩
    | pause row now row1 hr h ih =>
        obtain ⟨a, ha, h0⟩ := ih
        obtain ⟨b, hb, hle⟩ := pauseRow_ok_acc h
        rw [ha] at hle
        simp only [intOrZero] at hle
        exact ⟨b, hb, le_trans h0 hle⟩
    | resume row now row1 hr h ih =>
        obtain ⟨a, ha, h0⟩ := ih
        exact ⟨a, by rw [resumeRow_ok_acc h, ha], h0⟩
    | stop row now hr ih =>
        obtain ⟨a, ha, h0⟩ := ih
        refine ⟨stopBankedAcc row now, rfl, ?_⟩
        have hge := stopBankedAcc_ge row now
        rw [ha] at hge
        simp only [intOrZero] at hge
        exact le_trans h0 hge
  · intro p now row h
    exact createTimerRow_ok_acc h
  · intro row now row1 h
    obtain ⟨b, hb, hle⟩ := pauseRow_ok_acc h
    rw [hb]
    simpa [intOrZero] using hle
  · intro row now row1 h
    exact resumeRow_ok_acc h
  · intro row now
    exact stopBankedAcc_ge row now

/-- Witness for C10: the record created with duration 100 at now = 5
starts at accumulated_ms = 0, hence non-negative; pausing the stored
running countdown at now = 4000 does not lower the accumulated value;
resuming the paused countdown carries it over; stopping never lowers
it. -/
theorem accumulated_invariant_spec_witness :
    (freshTimerRow ⟨none, none, some (some 100)⟩ (some 100) 5).accumulated_ms = some 0 ∧
    0 ≤ intOrZero (freshTimerRow ⟨none, none, some (some 100)⟩ (some 100) 5).accumulated_ms ∧
    intOrZero exRunRow.accumulated_ms ≤
      intOrZero ({ exRunRow with
        status := "paused",
        paused_at := TS.valid 4000,
        accumulated_ms := some (intOrZero exRunRow.accumulated_ms + max 0 (4000 - 1000)),
        updated_at := 4000 } : TimerRow).accumulated_ms ∧
    ({ exPausedRow with
        status := "running",
        started_at := TS.valid 5000,
        updated_at := 5000 } : TimerRow).accumulated_ms = exPausedRow.accumulated_ms ∧
    intOrZero exRunRow.accumulated_ms ≤ intOrZero (stopRow exRunRow 4000).accumulated_ms := by
  have h := accumulated_invariant_spec
  refine ⟨h.2.1 ⟨none, none, some (some 100)⟩ 5 _ rfl, ?_, ?_, ?_,
    h.2.2.2.2 exRunRow 4000⟩
  · obtain ⟨a, ha, h0⟩ :=
      h.1 _ (ReachableRow.create ⟨none, none, some (some 100)⟩ 5 _ rfl)
    rw [ha]
    simpa [intOrZero] using h0
  · exact h.2.2.1 exRunRow 4000 _ (by simp [pauseRow, exRunRow])
  · exact h.2.2.2.1 exPausedRow 5000 _ (by simp [resumeRow, exPausedRow])

end AmbientStudy
